import Mathlib

/-!
# Verification of the `ros2-grafana` rate-estimation engine

Shallow embedding of `src/ros2-grafana/src/main.py`, centred on the class
`ROSTopicHz`: a per-channel sliding-window accumulator (`callback_hz`) and a
throttled statistics snapshot (`get_hz`), plus the CLI window-size validator
`positive_int`.

Modelling conventions:
* Python integers (nanosecond timestamps, intervals) become `Int`; the Python
  float arithmetic of `get_hz` (`sum(times)/n`, `1./mean`) is modelled with
  exact rationals `ℚ`, and `math.sqrt` with `Real.sqrt` applied to the exact
  radicand (the `variance` field below).
* The per-topic `defaultdict` bookkeeping of one channel (`_msg_t0[topic]`,
  `_msg_tn[topic]`, `_times[topic]`, `_last_printed_tn[topic]`) becomes the
  structure `ChannelState`; defaultdict defaults give `chInit`.
* Python exceptions are modelled with `Except PyErr`; a raising filter
  predicate is an `Except.error` result of the predicate evaluation.
* The `topic=None` / falsy-topic "global" state of `ROSTopicHz` (attributes
  `msg_t0`, `msg_tn`, `times`, and the *never-initialised* `last_printed_tn`)
  becomes `GlobalState`, with `last_printed_tn : Option Int` where `none`
  means "attribute was never assigned" (reading it raises `AttributeError`).
-/

/-- Python exceptions that the modelled code can raise. -/
inductive PyErr where
  | attributeError
  | argumentTypeError
  | exn
deriving DecidableEq

/-- Per-channel bookkeeping of `ROSTopicHz` for one truthy topic key:
`_msg_t0[topic]` (first timestamp, `-1` = uninitialised), `_msg_tn[topic]`
(last timestamp), `_times[topic]` (inter-arrival intervals), and
`_last_printed_tn[topic]` (last reported timestamp, `0` = never). -/
structure ChannelState where
  msg_t0 : Int
  msg_tn : Int
  times : List Int
  last_printed_tn : Int
deriving DecidableEq

/-- The defaultdict defaults of `ROSTopicHz.__init__`:
`_msg_t0` defaults to `-1`, `_msg_tn` to `0`, `_times` to `[]`,
`_last_printed_tn` to `0`. -/
def chInit : ChannelState := ⟨-1, 0, [], 0⟩

/-- Core of `ROSTopicHz.callback_hz` (lines 120-141 of `main.py`), after the
filter check, for one channel: with the current clock value `curr` in
nanoseconds, (1) a zero clock clears the window (when non-empty) and returns;
(2) an uninitialised origin (`msg_t0 < 0`) or a backward jump past the origin
(`msg_t0 > curr`) resets the window to `curr`; (3) otherwise the delta
`curr - msg_tn` is appended and `msg_tn` updated; (4) if the window exceeds
`window_size` its oldest element is popped (`pop(0)` = drop the head),
factored out below as `evict` (lines 140-141, applied after either branch). -/
def evict (window_size : Nat) (s : ChannelState) : ChannelState :=
  if s.times.length > window_size then { s with times := s.times.tail } else s

def callback_core (window_size : Nat) (curr : Int) (s : ChannelState) :
    ChannelState :=
  if curr = 0 then
    if s.times.length > 0 then { s with times := [] } else s
  else if s.msg_t0 < 0 ∨ s.msg_t0 > curr then
    evict window_size { s with msg_t0 := curr, msg_tn := curr, times := [] }
  else
    evict window_size
      { s with times := s.times ++ [curr - s.msg_tn], msg_tn := curr }

/-- `ROSTopicHz.callback_hz` including the filter guard (line 117):
`if self.filter_expr and not self.filter_expr(m): return`.
`filt = none` models `filter_expr = None` (no filter); `filt = some r` models
a configured predicate whose evaluation on the current message either raised
(`r = .error e`, which propagates out of `callback_hz` uncaught) or produced
a truthiness value `r = .ok b`. -/
def callback_hz (window_size : Nat) (filt : Option (Except PyErr Bool))
    (curr : Int) (s : ChannelState) : Except PyErr ChannelState :=
  match filt with
  | some (Except.error e) => Except.error e
  | some (Except.ok false) => Except.ok s
  | some (Except.ok true) => Except.ok (callback_core window_size curr s)
  | none => Except.ok (callback_core window_size curr s)

/-- Python's `max(list)` on a non-empty list (fold of binary `max`);
`0` for the empty list, which `get_hz` never reaches. -/
def listMax : List Int → Int
  | [] => 0
  | x :: xs => xs.foldl max x

/-- Python's `min(list)` on a non-empty list (fold of binary `min`);
`0` for the empty list, which `get_hz` never reaches. -/
def listMin : List Int → Int
  | [] => 0
  | x :: xs => xs.foldl min x

/-- The snapshot tuple `(rate, min_delta, max_delta, std_dev, n)` returned by
`get_hz`, with the float `std_dev = math.sqrt(v)` represented by its exact
radicand `variance = v` (see `HzStats.std_dev`). -/
structure HzStats where
  rate : ℚ
  min_delta : Int
  max_delta : Int
  variance : ℚ
  count : Nat
deriving DecidableEq

/-- The real-valued standard deviation carried by a snapshot:
`math.sqrt(sum((x - mean)**2 for x in times) / n)`. -/
noncomputable def HzStats.std_dev (st : HzStats) : ℝ := Real.sqrt st.variance

/-- The statistics block of `ROSTopicHz.get_hz` (lines 156-162):
`mean = sum(times)/n`, `rate = 1/mean if mean > 0 else 0`,
`std_dev = sqrt(sum((x-mean)**2)/n)` (population), `max(times)`, `min(times)`,
`n = len(times)`. -/
def statsOf (times : List Int) : HzStats :=
  let n : ℚ := times.length
  let mean : ℚ := (times.map fun x => (x : ℚ)).sum / n
  { rate := if 0 < mean then 1 / mean else 0
    min_delta := listMin times
    max_delta := listMax times
    variance := ((times.map fun x => ((x : ℚ) - mean) ^ 2).sum) / n
    count := times.length }

/-- `ROSTopicHz.get_hz` (lines 143-166) for one truthy channel: empty window
returns nothing; `last_printed_tn == 0` primes the throttle (sets it to
`msg_tn`) and returns nothing; `msg_tn < last_printed_tn + 1e9` returns
nothing; otherwise the statistics of the current window are returned and
`last_printed_tn` is set to `msg_tn`. -/
def get_hz (s : ChannelState) : Option HzStats × ChannelState :=
  if s.times = [] then (none, s)
  else if s.last_printed_tn = 0 then
    (none, { s with last_printed_tn := s.msg_tn })
  else if s.msg_tn < s.last_printed_tn + 10 ^ 9 then (none, s)
  else (some (statsOf s.times), { s with last_printed_tn := s.msg_tn })

/-- `positive_int` (lines 19-26): `int(string)` (modelled by `String.toInt?`,
`ValueError` becoming `-1`), then values `<= 0` raise `ArgumentTypeError`. -/
def positive_int (string : String) : Except PyErr Int :=
  let value : Int := (string.toInt?).getD (-1)
  if value ≤ 0 then Except.error PyErr.argumentTypeError else Except.ok value

/-- Feeding a sequence of clock values to one channel
(`callback_hz` once per accepted message, no filter). -/
def feed (window_size : Nat) (ts : List Int) (s : ChannelState) :
    ChannelState :=
  ts.foldl (fun s t => callback_core window_size t s) s

/-- The most recent `w` elements of a list (the spec's
"most recent `window_size` deltas"). -/
def takeLast (w : Nat) (l : List Int) : List Int := l.drop (l.length - w)

/-- Consecutive deltas of a timestamp sequence, starting from `prev`. -/
def deltasFrom (prev : Int) : List Int → List Int
  | [] => []
  | t :: ts => (t - prev) :: deltasFrom t ts

/-- Consecutive deltas of a timestamp sequence `t₁ :: rest`:
`[t₂ - t₁, t₃ - t₂, ...]`. -/
def deltasOf : List Int → List Int
  | [] => []
  | t :: ts => deltasFrom t ts

/-- The `topic=None` ("global") bookkeeping of `ROSTopicHz`: attributes
`msg_t0`, `msg_tn`, `times` set by `__init__`, and `last_printed_tn`, which
`__init__` does *not* set (`none` = attribute missing; reading it raises
`AttributeError`). -/
structure GlobalState where
  msg_t0 : Int
  msg_tn : Int
  times : List Int
  last_printed_tn : Option Int
deriving DecidableEq

/-- The whole accumulator: the global no-topic state plus the per-topic
defaultdict bookkeeping. -/
structure ROSTopicHzState where
  glob : GlobalState
  channels : String → ChannelState

/-- A freshly constructed `ROSTopicHz` (lines 65-77): global `msg_t0 = -1`,
`msg_tn = 0`, `times = []`, and no `last_printed_tn` attribute; all
per-topic defaultdicts at their defaults. -/
def hzInit : ROSTopicHzState := ⟨⟨-1, 0, [], none⟩, fun _ => chInit⟩

/-- Python truthiness of the `topic` argument (`None` and `''` are falsy),
which routes every getter to the global state. -/
def truthy : Option String → Bool
  | none => false
  | some t => !t.isEmpty

/-- `ROSTopicHz.get_hz` with its `topic` dispatch: a truthy topic uses the
per-topic state (`get_hz`); a falsy topic (`None` or `''`) reads the global
state, where `get_last_printed_tn` reads the attribute `last_printed_tn`
that `__init__` never initialised — `none` raises `AttributeError`.
`set_last_printed_tn` tests `topic is None`, so a falsy `topic = some ""`
would write to the defaultdict even though the read came from the global
attribute. -/
def get_hz_topic (st : ROSTopicHzState) (topic : Option String) :
    Except PyErr (Option HzStats × ROSTopicHzState) :=
  if truthy topic then
    let key := topic.getD ""
    let rc := get_hz (st.channels key)
    Except.ok (rc.1, { st with channels := Function.update st.channels key rc.2 })
  else
    let g := st.glob
    if g.times = [] then Except.ok (none, st)
    else
      match g.last_printed_tn with
      | none => Except.error PyErr.attributeError
      | some lp =>
        let printed : ROSTopicHzState :=
          match topic with
          | none => { st with glob := { g with last_printed_tn := some g.msg_tn } }
          | some key =>
            let c := st.channels key
            let c' : ChannelState := { c with last_printed_tn := g.msg_tn }
            { st with channels := Function.update st.channels key c' }
        if lp = 0 then Except.ok (none, printed)
        else if g.msg_tn < lp + 10 ^ 9 then Except.ok (none, st)
        else Except.ok (some (statsOf g.times), printed)

/-! ## Helper lemmas -/

theorem evict_length_le (window_size : Nat) (s : ChannelState)
    (h : s.times.length ≤ window_size + 1) :
    (evict window_size s).times.length ≤ window_size := by
  unfold evict
  split_ifs with hgt
  · simp only [List.length_tail]
    omega
  · omega

theorem evict_msg_fields (window_size : Nat) (s : ChannelState) :
    (evict window_size s).msg_t0 = s.msg_t0 ∧
    (evict window_size s).msg_tn = s.msg_tn ∧
    (evict window_size s).last_printed_tn = s.last_printed_tn := by
  unfold evict
  split_ifs <;> exact ⟨rfl, rfl, rfl⟩

theorem foldl_max_mem (xs : List Int) : ∀ x : Int, xs.foldl max x ∈ x :: xs := by
  induction xs with
  | nil => intro x; simp
  | cons y ys ih =>
    intro x
    have h := ih (max x y)
    simp only [List.foldl_cons, List.mem_cons]
    rcases List.mem_cons.mp h with h | h
    · rcases max_choice x y with hm | hm
      · exact Or.inl (h.trans hm)
      · exact Or.inr (Or.inl (h.trans hm))
    · exact Or.inr (Or.inr h)

theorem le_foldl_max (xs : List Int) :
    ∀ x : Int, x ≤ xs.foldl max x ∧ ∀ a ∈ xs, a ≤ xs.foldl max x := by
  induction xs with
  | nil => intro x; simp
  | cons y ys ih =>
    intro x
    obtain ⟨h1, h2⟩ := ih (max x y)
    simp only [List.foldl_cons, List.mem_cons]
    refine ⟨le_trans (le_max_left x y) h1, ?_⟩
    intro a ha
    rcases ha with ha | ha
    · rw [ha]; exact le_trans (le_max_right x y) h1
    · exact h2 a ha

theorem foldl_min_mem (xs : List Int) : ∀ x : Int, xs.foldl min x ∈ x :: xs := by
  induction xs with
  | nil => intro x; simp
  | cons y ys ih =>
    intro x
    have h := ih (min x y)
    simp only [List.foldl_cons, List.mem_cons]
    rcases List.mem_cons.mp h with h | h
    · rcases min_choice x y with hm | hm
      · exact Or.inl (h.trans hm)
      · exact Or.inr (Or.inl (h.trans hm))
    · exact Or.inr (Or.inr h)

theorem foldl_min_le (xs : List Int) :
    ∀ x : Int, xs.foldl min x ≤ x ∧ ∀ a ∈ xs, xs.foldl min x ≤ a := by
  induction xs with
  | nil => intro x; simp
  | cons y ys ih =>
    intro x
    obtain ⟨h1, h2⟩ := ih (min x y)
    simp only [List.foldl_cons, List.mem_cons]
    refine ⟨le_trans h1 (min_le_left x y), ?_⟩
    intro a ha
    rcases ha with ha | ha
    · rw [ha]; exact le_trans h1 (min_le_right x y)
    · exact h2 a ha

theorem listMax_mem (l : List Int) (h : l ≠ []) : listMax l ∈ l := by
  match l with
  | x :: xs => exact foldl_max_mem xs x

theorem le_listMax (l : List Int) (a : Int) (ha : a ∈ l) : a ≤ listMax l := by
  match l with
  | x :: xs =>
    rcases List.mem_cons.mp ha with h | h
    · exact h ▸ (le_foldl_max xs x).1
    · exact (le_foldl_max xs x).2 a h

theorem listMin_mem (l : List Int) (h : l ≠ []) : listMin l ∈ l := by
  match l with
  | x :: xs => exact foldl_min_mem xs x

theorem listMin_le (l : List Int) (a : Int) (ha : a ∈ l) : listMin l ≤ a := by
  match l with
  | x :: xs =>
    rcases List.mem_cons.mp ha with h | h
    · exact h ▸ (foldl_min_le xs x).1
    · exact (foldl_min_le xs x).2 a h

theorem takeLast_of_le (w : Nat) (l : List Int) (h : l.length ≤ w) :
    takeLast w l = l := by
  unfold takeLast
  rw [Nat.sub_eq_zero_of_le h, List.drop_zero]

theorem takeLast_cons (w : Nat) (x : Int) (l : List Int) (h : w ≤ l.length) :
    takeLast w (x :: l) = takeLast w l := by
  unfold takeLast
  simp only [List.length_cons]
  rw [show l.length + 1 - w = (l.length - w) + 1 by omega, List.drop_succ_cons]

theorem takeLast_length (w : Nat) (l : List Int) :
    (takeLast w l).length = l.length - (l.length - w) := by
  unfold takeLast
  rw [List.length_drop]

theorem deltasFrom_length (ts : List Int) : ∀ prev : Int,
    (deltasFrom prev ts).length = ts.length := by
  induction ts with
  | nil => intro prev; rfl
  | cons t ts ih =>
    intro prev
    simp only [deltasFrom, List.length_cons, ih]

theorem takeLast_tail_append (w : Nat) (l d : List Int) (h : w ≤ l.length - 1) :
    takeLast w (l.tail ++ d) = takeLast w (l ++ d) := by
  match l with
  | [] => rfl
  | x :: l' =>
    simp only [List.tail_cons, List.cons_append]
    rw [takeLast_cons]
    simp only [List.length_append, List.length_cons] at h ⊢
    omega

theorem feed_run (window_size : Nat) (ts : List Int) : ∀ s : ChannelState,
    0 ≤ s.msg_t0 → s.msg_t0 ≤ s.msg_tn →
    List.Chain' (· < ·) (s.msg_tn :: ts) → s.times.length ≤ window_size →
    feed window_size ts s =
      ⟨s.msg_t0, ts.getLastD s.msg_tn,
        takeLast window_size (s.times ++ deltasFrom s.msg_tn ts),
        s.last_printed_tn⟩ := by
  induction ts with
  | nil =>
    intro s h0 h1 _ hlen
    simp only [feed, List.foldl_nil, List.getLastD_nil, deltasFrom,
      List.append_nil, takeLast_of_le window_size s.times hlen]
  | cons t ts ih =>
    intro s h0 h1 hch hlen
    rw [List.chain'_cons] at hch
    obtain ⟨hlt, hch'⟩ := hch
    have ht0 : ¬ t = 0 := by omega
    have hres : ¬ (s.msg_t0 < 0 ∨ s.msg_t0 > t) := by
      push_neg
      omega
    have step : callback_core window_size t s =
        evict window_size
          { s with times := s.times ++ [t - s.msg_tn], msg_tn := t } := by
      unfold callback_core
      rw [if_neg ht0, if_neg hres]
    have hfeed : feed window_size (t :: ts) s =
        feed window_size ts (callback_core window_size t s) := rfl
    rw [hfeed, step]
    rcases Nat.lt_or_ge window_size (s.times.length + 1) with hgt | hle
    · -- eviction fires: the appended window has length `window_size + 1`
      have hlen1 : s.times.length = window_size := by omega
      have hev : evict window_size
          { s with times := s.times ++ [t - s.msg_tn], msg_tn := t } =
          ⟨s.msg_t0, t, (s.times ++ [t - s.msg_tn]).tail,
            s.last_printed_tn⟩ := by
        unfold evict
        rw [if_pos (by simp [List.length_append, hlen1])]
      rw [hev]
      have := ih ⟨s.msg_t0, t, (s.times ++ [t - s.msg_tn]).tail,
          s.last_printed_tn⟩ h0 (by exact le_of_lt (lt_of_le_of_lt h1 hlt))
          hch' (by simp [List.length_tail, List.length_append]; omega)
      rw [this]
      simp only [deltasFrom, List.getLastD_cons]
      rw [takeLast_tail_append]
      · rw [List.append_cons s.times (t - s.msg_tn) (deltasFrom t ts)]
      · simp [List.length_append]
        omega
    · -- no eviction: the appended window still fits
      have hev : evict window_size
          { s with times := s.times ++ [t - s.msg_tn], msg_tn := t } =
          ⟨s.msg_t0, t, s.times ++ [t - s.msg_tn], s.last_printed_tn⟩ := by
        unfold evict
        rw [if_neg (by simp [List.length_append]; omega)]
      rw [hev]
      have := ih ⟨s.msg_t0, t, s.times ++ [t - s.msg_tn], s.last_printed_tn⟩
          h0 (by exact le_of_lt (lt_of_le_of_lt h1 hlt)) hch'
          (by simp [List.length_append]; omega)
      rw [this]
      simp only [deltasFrom, List.getLastD_cons]
      rw [List.append_cons s.times (t - s.msg_tn) (deltasFrom t ts)]

/-! ## Claim theorems -/

/-- C4: snapshot on an empty intervals window returns nothing and changes
no state; the first non-empty snapshot after a reset (`last_printed_tn = 0`)
also returns nothing but arms the throttle by setting `last_printed_tn` to
`msg_tn` (prime, don't report). -/
theorem get_hz_prime (s : ChannelState) :
    (s.times = [] → get_hz s = (none, s)) ∧
    (s.times ≠ [] → s.last_printed_tn = 0 →
      get_hz s = (none, { s with last_printed_tn := s.msg_tn })) := by
  refine ⟨fun h => ?_, fun h h0 => ?_⟩
  · simp [get_hz, h]
  · simp [get_hz, h, h0]

theorem get_hz_prime_witness :
    get_hz ⟨-1, 0, [], 0⟩ = (none, ⟨-1, 0, [], 0⟩) ∧
    get_hz ⟨2, 9, [7], 0⟩ = (none, ⟨2, 9, [7], 9⟩) :=
  ⟨(get_hz_prime ⟨-1, 0, [], 0⟩).1 rfl,
   (get_hz_prime ⟨2, 9, [7], 0⟩).2 (by decide) rfl⟩

/-- C5 counterexample: the claim says any non-first sample with
`t ≤ first_timestamp` clears the window, but feeding `t = 5` to a channel
with `first_timestamp = 5` (state reachable from arrivals `[5, 7]`) takes
the append branch (`msg_t0 > curr` is false): the window becomes `[2, -2]`,
not `[]`. -/
theorem callback_hz_eq_origin_not_cleared :
    callback_core 10 5 ⟨5, 7, [2], 0⟩ = ⟨5, 5, [2, -2], 0⟩ ∧
    (callback_core 10 5 ⟨5, 7, [2], 0⟩).times ≠ [] := by decide

/-- C5 amended: for an initialised window (`first_timestamp ≥ 0`) and a
nonzero timestamp `t`, ingest clears the window and restarts bookkeeping at
`t` exactly when `t < first_timestamp` (strictly); for `t ≥ first_timestamp`
it appends `t - last_timestamp` (evicting the oldest element if the window
overflows) and sets `last_timestamp = t`. -/
theorem callback_hz_reset_policy (window_size : Nat) (s : ChannelState)
    (t : Int) (h0 : 0 ≤ s.msg_t0) (ht : t ≠ 0) :
    (t < s.msg_t0 →
      callback_core window_size t s = ⟨t, t, [], s.last_printed_tn⟩) ∧
    (s.msg_t0 ≤ t →
      callback_core window_size t s =
        ⟨s.msg_t0, t,
          if window_size < (s.times ++ [t - s.msg_tn]).length then
            (s.times ++ [t - s.msg_tn]).tail
          else s.times ++ [t - s.msg_tn],
          s.last_printed_tn⟩) := by
  constructor
  · intro hlt
    unfold callback_core
    rw [if_neg ht, if_pos (Or.inr hlt)]
    unfold evict
    rw [if_neg (by simp)]
  · intro hle
    unfold callback_core
    rw [if_neg ht, if_neg (by push_neg; exact ⟨not_lt.mp (by omega), hle⟩)]
    unfold evict
    dsimp only
    split
    · rfl
    · rfl

theorem callback_hz_reset_policy_witness :
    callback_core 10 3 ⟨5, 7, [2], 0⟩ = ⟨3, 3, [], 0⟩ ∧
    callback_core 10 9 ⟨5, 7, [2], 0⟩ = ⟨5, 9, [2, 2], 0⟩ := by
  constructor
  · exact (callback_hz_reset_policy 10 ⟨5, 7, [2], 0⟩ 3 (by decide)
      (by decide)).1 (by decide)
  · exact ((callback_hz_reset_policy 10 ⟨5, 7, [2], 0⟩ 9 (by decide)
      (by decide)).2 (by decide)).trans (by decide)

/-- C6: ingesting the sentinel timestamp `0` clears the intervals list
without recording an interval and without altering `msg_t0`, `msg_tn` or
`last_printed_tn`; on an already-empty window it changes nothing. -/
theorem callback_hz_zero_sentinel (window_size : Nat) (s : ChannelState) :
    (s.times ≠ [] →
      callback_core window_size 0 s = { s with times := [] }) ∧
    (s.times = [] → callback_core window_size 0 s = s) := by
  refine ⟨fun h => ?_, fun h => ?_⟩
  · unfold callback_core
    rw [if_pos rfl, if_pos (List.length_pos.mpr h)]
  · unfold callback_core
    rw [if_pos rfl, if_neg (by simp [h])]

theorem callback_hz_zero_sentinel_witness :
    callback_core 10 0 ⟨3, 8, [5], 4⟩ = ⟨3, 8, [], 4⟩ ∧
    callback_core 10 0 ⟨-1, 0, [], 0⟩ = ⟨-1, 0, [], 0⟩ :=
  ⟨(callback_hz_zero_sentinel 10 ⟨3, 8, [5], 4⟩).1 (by decide),
   (callback_hz_zero_sentinel 10 ⟨-1, 0, [], 0⟩).2 rfl⟩

/-- C7 counterexample: the claim says a raising filter predicate is
treated as rejecting the message and does not crash ingestion, but
`callback_hz` has no exception handling around `self.filter_expr(m)`
(line 117): the evaluation error propagates out of the call. -/
theorem callback_hz_filter_raises_propagates :
    callback_hz 10 (some (Except.error PyErr.exn)) 7 chInit =
      Except.error PyErr.exn := rfl

/-- C7 amended: ingest never raises on any timestamp — zero and
out-of-order values are absorbed by the reset policy — provided the filter
predicate evaluation itself does not raise; a raising predicate propagates
its exception out of `callback_hz` (it is *not* treated as a rejection). -/
theorem callback_hz_total_when_filter_ok (window_size : Nat)
    (filt : Option (Except PyErr Bool)) (curr : Int) (s : ChannelState)
    (h : ∀ e : PyErr, filt ≠ some (Except.error e)) :
    ∃ s' : ChannelState,
      callback_hz window_size filt curr s = Except.ok s' := by
  match filt with
  | none => exact ⟨callback_core window_size curr s, rfl⟩
  | some (Except.ok true) => exact ⟨callback_core window_size curr s, rfl⟩
  | some (Except.ok false) => exact ⟨s, rfl⟩
  | some (Except.error e) => exact absurd rfl (h e)

theorem callback_hz_total_when_filter_ok_witness :
    ∃ s' : ChannelState, callback_hz 10 none 0 chInit = Except.ok s' :=
  callback_hz_total_when_filter_ok 10 none 0 chInit (by simp)

/-- C8: a message rejected by the filter predicate (evaluation returned
falsy) leaves the whole channel state unchanged: `times`, `msg_t0`,
`msg_tn` and `last_printed_tn` are untouched, no timestamp is recorded and
no reset is triggered. -/
theorem callback_hz_filter_reject_frame (window_size : Nat) (curr : Int)
    (s : ChannelState) :
    callback_hz window_size (some (Except.ok false)) curr s =
      Except.ok s := rfl

/-- C9: the window-size validator accepts a configuration string exactly
when it denotes a positive integer (`int(string)` succeeds with a value
`> 0`), returning that value; non-numeric strings and non-positive values
both raise `ArgumentTypeError` at construction, never silently coerced. -/
theorem positive_int_spec (string : String) :
    (∀ v : Int, positive_int string = Except.ok v ↔
      string.toInt? = some v ∧ 0 < v) ∧
    (positive_int string = Except.error PyErr.argumentTypeError ↔
      ¬ ∃ v : Int, string.toInt? = some v ∧ 0 < v) := by
  unfold positive_int
  cases h : string.toInt? with
  | none =>
    simp only [h, Option.getD_none]
    rw [if_pos (by norm_num : (-1 : Int) ≤ 0)]
    constructor
    · intro v
      constructor
      · intro hco
        exact absurd hco (by simp)
      · rintro ⟨hv, _⟩
        exact absurd hv (by simp)
    · constructor
      · rintro - ⟨v, hv, _⟩
        exact absurd hv (by simp)
      · intro _
        rfl
  | some a =>
    simp only [h, Option.getD_some]
    rcases le_or_lt a 0 with ha | ha
    · rw [if_pos ha]
      constructor
      · intro v
        constructor
        · intro hco
          exact absurd hco (by simp)
        · rintro ⟨hv, hpos⟩
          injection hv with hv
          omega
      · constructor
        · rintro - ⟨v, hv, hpos⟩
          injection hv with hv
          omega
        · intro _
          rfl
    · rw [if_neg (not_le.mpr ha)]
      constructor
      · intro v
        constructor
        · intro hok
          injection hok with hv
          exact ⟨by rw [hv], by omega⟩
        · rintro ⟨hv, _⟩
          injection hv with hv
          rw [hv]
      · constructor
        · intro hco
          exact absurd hco (by simp)
        · intro hno
          exact absurd ⟨a, rfl, ha⟩ hno

/-- C1: past the throttle (non-empty window, armed `last_printed_tn`,
at least `1e9` ns of message time elapsed), `get_hz` returns the snapshot
tuple with `rate = 1/mean` if `mean > 0` else `0` where
`mean = sum(intervals)/count`, the population standard deviation
`sqrt(sum((x - mean)^2)/count)`, the minimum and maximum interval, and
`count = len(intervals)`, and it updates `last_printed_tn` to `msg_tn`. -/
theorem get_hz_computes_stats (s : ChannelState)
    (h1 : s.times ≠ []) (h2 : s.last_printed_tn ≠ 0)
    (h3 : s.last_printed_tn + 10 ^ 9 ≤ s.msg_tn) :
    get_hz s =
      (some (statsOf s.times), { s with last_printed_tn := s.msg_tn }) ∧
    (statsOf s.times).count = s.times.length ∧
    (statsOf s.times).rate =
      (if 0 < ((s.times.map fun x => (x : ℚ)).sum / (s.times.length : ℚ))
       then 1 / ((s.times.map fun x => (x : ℚ)).sum / (s.times.length : ℚ))
       else 0) ∧
    (statsOf s.times).std_dev =
      Real.sqrt
        ((((s.times.map fun x =>
            ((x : ℚ) - (s.times.map fun y => (y : ℚ)).sum /
              (s.times.length : ℚ)) ^ 2).sum / (s.times.length : ℚ)) :
          ℚ)) ∧
    (statsOf s.times).min_delta ∈ s.times ∧
    (∀ x ∈ s.times, (statsOf s.times).min_delta ≤ x) ∧
    (statsOf s.times).max_delta ∈ s.times ∧
    (∀ x ∈ s.times, x ≤ (statsOf s.times).max_delta) := by
  refine ⟨?_, rfl, rfl, rfl, ?_, ?_, ?_, ?_⟩
  · unfold get_hz
    rw [if_neg h1, if_neg h2, if_neg (not_lt.mpr h3)]
  · exact listMin_mem s.times h1
  · exact fun x hx => listMin_le s.times x hx
  · exact listMax_mem s.times h1
  · exact fun x hx => le_listMax s.times x hx

theorem get_hz_computes_stats_witness :
    get_hz ⟨0, 1000000005, [100, 100, 100, 100], 5⟩ =
      (some ⟨1 / 100, 100, 100, 0, 4⟩,
       ⟨0, 1000000005, [100, 100, 100, 100], 1000000005⟩) ∧
    (⟨1 / 100, 100, 100, 0, 4⟩ : HzStats).std_dev = 0 := by
  constructor
  · have h := (get_hz_computes_stats ⟨0, 1000000005, [100, 100, 100, 100], 5⟩
      (by decide) (by decide) (by decide)).1
    rw [h]
    simp only [Prod.mk.injEq, Option.some_inj]
    constructor
    · show statsOf [100, 100, 100, 100] = _
      simp only [statsOf, listMin, listMax, List.map_cons, List.map_nil,
        List.sum_cons, List.sum_nil, List.length_cons, List.length_nil,
        List.foldl_cons, List.foldl_nil]
      norm_num
    · trivial
  · show Real.sqrt ((0 : ℚ) : ℝ) = 0
    rw [Rat.cast_zero, Real.sqrt_zero]

/-- C2: the intervals list never exceeds `window_size` (ingest preserves
the bound, evicting the oldest element FIFO), and feeding any strictly
increasing sequence of `n ≥ window_size + 1` positive timestamps to a fresh
channel leaves exactly the most recent `window_size` consecutive deltas. -/
theorem callback_hz_window_bound (window_size : Nat) :
    (∀ (t : Int) (s : ChannelState), s.times.length ≤ window_size →
      (callback_core window_size t s).times.length ≤ window_size) ∧
    (∀ ts : List Int, List.Chain' (· < ·) ts → (∀ t ∈ ts, 0 < t) →
      window_size + 1 ≤ ts.length →
      (feed window_size ts chInit).times =
        takeLast window_size (deltasOf ts) ∧
      (feed window_size ts chInit).times.length = window_size) := by
  constructor
  · intro t s hlen
    unfold callback_core
    split_ifs with h1 h2 h3
    · simp
    · exact hlen
    · exact evict_length_le window_size _ (by simp)
    · exact evict_length_le window_size _ (by simp; omega)
  · intro ts hch hpos hlen
    match ts with
    | [] => simp at hlen
    | t :: rest =>
      have ht : 0 < t := hpos t (by simp)
      have hstep : callback_core window_size t chInit = ⟨t, t, [], 0⟩ := by
        show callback_core window_size t ⟨-1, 0, [], 0⟩ = ⟨t, t, [], 0⟩
        unfold callback_core
        rw [if_neg (by omega), if_pos (Or.inl (by decide))]
        unfold evict
        rw [if_neg (by simp)]
      have hfeed : feed window_size (t :: rest) chInit =
          feed window_size rest (callback_core window_size t chInit) := rfl
      have hrun := feed_run window_size rest ⟨t, t, [], 0⟩ (by simpa using ht.le)
        (le_refl t) (by simpa using hch) (by simp)
      rw [hfeed, hstep, hrun]
      have hdl : (deltasFrom t rest).length = rest.length :=
        deltasFrom_length rest t
      have hlen' : window_size ≤ rest.length := by
        simp only [List.length_cons] at hlen
        omega
      constructor
      · simp only [List.nil_append]
        rfl
      · simp only [List.nil_append, takeLast_length, hdl, deltasOf]
        omega

theorem callback_hz_window_bound_witness :
    (callback_core 2 50 ⟨10, 40, [10, 10], 0⟩).times.length ≤ 2 ∧
    (feed 2 [10, 20, 30, 40] chInit).times =
      takeLast 2 (deltasOf [10, 20, 30, 40]) ∧
    (feed 2 [10, 20, 30, 40] chInit).times.length = 2 := by
  refine ⟨(callback_hz_window_bound 2).1 50 ⟨10, 40, [10, 10], 0⟩ (by decide),
    ?_, ?_⟩
  · exact ((callback_hz_window_bound 2).2 [10, 20, 30, 40]
      (by norm_num [List.chain'_cons]) (by decide) (by decide)).1
  · exact ((callback_hz_window_bound 2).2 [10, 20, 30, 40]
      (by norm_num [List.chain'_cons]) (by decide) (by decide)).2

/-- C3: `get_hz` returns nothing whenever fewer than `1e9` ns of message
time have elapsed (`msg_tn < last_printed_tn + 1e9`); with an armed throttle
and a non-empty window it returns the statistics of the *current* full
window once at least `1e9` ns have elapsed. A successful snapshot requires
`last_printed_tn + 1e9 ≤ msg_tn` and sets `last_printed_tn := msg_tn`, and
ingest never modifies `last_printed_tn`; together these give the
once-per-second-of-message-time reporting bound, independent of how often
the polling loop calls `get_hz`. -/
theorem get_hz_throttle (window_size : Nat) (s : ChannelState) :
    (s.msg_tn < s.last_printed_tn + 10 ^ 9 → (get_hz s).1 = none) ∧
    (s.times ≠ [] → s.last_printed_tn ≠ 0 →
      s.last_printed_tn + 10 ^ 9 ≤ s.msg_tn →
      get_hz s =
        (some (statsOf s.times), { s with last_printed_tn := s.msg_tn })) ∧
    (∀ (r : HzStats) (s' : ChannelState), get_hz s = (some r, s') →
      s.last_printed_tn + 10 ^ 9 ≤ s.msg_tn ∧
      s'.last_printed_tn = s.msg_tn) ∧
    (∀ t : Int,
      (callback_core window_size t s).last_printed_tn =
        s.last_printed_tn) := by
  refine ⟨fun h => ?_, fun h1 h2 h3 => ?_, fun r s' h => ?_, fun t => ?_⟩
  · unfold get_hz
    split_ifs <;> rfl
  · unfold get_hz
    rw [if_neg h1, if_neg h2, if_neg (not_lt.mpr h3)]
  · unfold get_hz at h
    split_ifs at h with ha hb hc
    · exact absurd h (by simp)
    · exact absurd h (by simp)
    · exact absurd h (by simp)
    · rw [Prod.mk.injEq] at h
      refine ⟨not_lt.mp hc, ?_⟩
      rw [← h.2]
  · unfold callback_core
    split_ifs with ha hb hc
    · rfl
    · rfl
    · unfold evict
      split_ifs <;> rfl
    · unfold evict
      split_ifs <;> rfl

theorem get_hz_throttle_witness :
    (get_hz ⟨0, 50, [7], 5⟩).1 = none ∧
    get_hz ⟨0, 1000000006, [4, 6], 6⟩ =
      (some (statsOf [4, 6]), ⟨0, 1000000006, [4, 6], 1000000006⟩) := by
  constructor
  · exact (get_hz_throttle 1 ⟨0, 50, [7], 5⟩).1 (by decide)
  · exact (get_hz_throttle 1 ⟨0, 1000000006, [4, 6], 6⟩).2.1 (by decide)
      (by decide) (by decide)

/-- C10: on a freshly constructed accumulator (whose `__init__` never
assigns the no-topic attribute `last_printed_tn`), calling `get_hz` with a
falsy channel key (`topic = None` or the empty string, both routed to the
global state) once the global intervals list is non-empty raises
`AttributeError`: `get_last_printed_tn` reads `self.last_printed_tn` before
any `set_last_printed_tn` call could have created it. -/
theorem get_hz_no_topic_attr_missing (st : ROSTopicHzState)
    (topic : Option String) (hfalsy : truthy topic = false)
    (hlp : st.glob.last_printed_tn = none) (hne : st.glob.times ≠ []) :
    get_hz_topic st topic = Except.error PyErr.attributeError := by
  unfold get_hz_topic
  rw [if_neg (by simp [hfalsy])]
  rw [if_neg hne, hlp]

theorem get_hz_no_topic_attr_missing_witness :
    get_hz_topic ⟨⟨-1, 500, [100], none⟩, fun _ => chInit⟩ none =
      Except.error PyErr.attributeError ∧
    get_hz_topic ⟨⟨-1, 500, [100], none⟩, fun _ => chInit⟩ (some "") =
      Except.error PyErr.attributeError :=
  ⟨get_hz_no_topic_attr_missing _ none rfl rfl (by decide),
   get_hz_no_topic_attr_missing _ (some "") (by decide) rfl (by decide)⟩
